import Mathlib

/-!
A shallow embedding of polynote's remote-kernel socket transport
(`polynote.kernel.remote.SocketTransport`, file `SocketTransport.scala`).

The embedding models one TCP byte stream as a `SockState`: the bytes the peer
has sent (or will send) plus a flag saying whether end-of-stream follows them.
A blocking NIO `socketChannel.read(buf)` call may deliver any positive number
of bytes up to the buffer's remaining capacity; those partial-read split points
are driven by an explicit schedule of hints (`hs : List Nat`), so theorems
quantified over all schedules cover every way the OS may fragment the stream.
-/

namespace Polynote

/-- State of one side of a TCP connection, as seen by the reader:
`data` = the bytes available (now or eventually) from the peer, in order;
`eofAfter` = whether the peer's end-of-stream follows after `data` is drained
(if `false`, a read past `data` blocks forever). -/
structure SockState where
  data : List Nat
  eofAfter : Bool
deriving DecidableEq, Repr

/-- Result of one of the `while (buf.hasRemaining) { socketChannel.read(buf) }`
loops in `FramedSocket.readBuffer`: the buffer was filled, or a read returned
`-1` (end of stream), or a read blocked forever (no data, no EOF). -/
inductive FillRes where
  | filled (bs : List Nat) (s : SockState) (hs : List Nat)
  | sawEof (s : SockState) (hs : List Nat)
  | noProgress
deriving DecidableEq, Repr

/-- One `while (hasRemaining) read` loop, `need` bytes still missing.
A blocking-mode NIO read on a channel with available data delivers at least one
byte and at most `min need available`; the schedule hint picks the amount (a
hint of `0` or an exhausted schedule means "as much as possible").  Every
iteration that delivers bytes delivers at least one, so the loop runs at most
`need` more iterations; `fuel` is that bound (callers pass `fuel := need`). -/
def fillAux : Nat → Nat → List Nat → List Nat → SockState → FillRes
  | _, 0, acc, hs, s => .filled acc s hs
  | 0, _ + 1, _, _, _ => .noProgress
  | f + 1, n + 1, acc, hs, s =>
    match s.data with
    | [] => if s.eofAfter then .sawEof ⟨[], s.eofAfter⟩ hs.tail else .noProgress
    | b :: bs =>
      let d := b :: bs
      let k := min (n + 1) (min (max (hs.headD d.length) 1) d.length)
      fillAux f (n + 1 - k) (acc ++ d.take k) hs.tail ⟨d.drop k, s.eofAfter⟩

/-- Read exactly `need` bytes from the socket, looping across partial reads
(the two `while (hasRemaining)` loops of `FramedSocket.readBuffer`). -/
def fill (need : Nat) (acc hs : List Nat) (s : SockState) : FillRes :=
  fillAux need need acc hs s

/-- Big-endian bytes of an unsigned 32-bit value, as `ByteBuffer.putInt` lays
them out (16777216 = 2^24, 65536 = 2^16). -/
def beBytes (u : Nat) : List Nat :=
  [u / 16777216 % 256, u / 65536 % 256, u / 256 % 256, u % 256]

/-- The unsigned value of 4 big-endian bytes. -/
def beVal : List Nat → Nat
  | [a, b, c, d] => ((a * 256 + b) * 256 + c) * 256 + d
  | _ => 0

/-- `ByteBuffer.getInt(0)`: interpret 4 big-endian bytes as a signed 32-bit
integer (2147483648 = 2^31, 4294967296 = 2^32). -/
def getInt32 (bs : List Nat) : Int :=
  let u := beVal bs
  if u < 2147483648 then (u : Int) else (u : Int) - 4294967296

/-- `ByteBuffer.putInt(0, n)`: the 4 big-endian bytes of the signed 32-bit
integer `n` (two's complement). -/
def putInt32 (n : Int) : List Nat :=
  beBytes ((n % 4294967296).toNat)

/-- Scala's `Long.toInt` applied to a nonnegative length: keep the low 32 bits
and reinterpret as signed (this is `byteVector.size.toInt` in
`FramedSocket.write`). -/
def toInt32 (u : Nat) : Int :=
  let v := u % 4294967296
  if v < 2147483648 then (v : Int) else (v : Int) - 4294967296

/-- Outcome of one call to `FramedSocket.readBuffer()`:
`ret v s hs` = the call returned `v` (`None` / `Some(None)` / `Some(Some buf)`
 in the source), leaving socket state `s` and schedule `hs`;
`blocked` = a read blocked forever (no data and no end-of-stream);
`diverge` = the payload loop spun forever: the source's
`while (msgBuffer.hasRemaining) { socketChannel.read(msgBuffer) }` ignores the
read's return value, and once `read` returns `-1` it returns `-1` on every
subsequent call with the buffer unchanged, so the loop never exits. -/
inductive ReadOutcome where
  | ret (v : Option (Option (List Nat))) (s : SockState) (hs : List Nat)
  | blocked
  | diverge
deriving DecidableEq, Repr

/-- `FramedSocket.readBuffer()`: read the 4-byte big-endian signed length in
full (the length loop returns `None` as soon as a read returns `-1`), then
dispatch on the length: negative = peer closed (`None`), zero = keepalive
(`Some(None)`), positive = read exactly that many payload bytes in full. -/
def FramedSocket.readBuffer (hs : List Nat) (s : SockState) : ReadOutcome :=
  match fill 4 [] hs s with
  | .noProgress => .blocked
  | .sawEof s' hs' => .ret none s' hs'
  | .filled lenBytes s' hs' =>
    let len := getInt32 lenBytes
    if len < 0 then .ret none s' hs'
    else if len = 0 then .ret (some none) s' hs'
    else
      match fill len.toNat [] hs' s' with
      | .noProgress => .blocked
      | .sawEof _ _ => .diverge
      | .filled payload s2 hs2 => .ret (some (some payload)) s2 hs2

/-- The bytes `FramedSocket.write(msg)` puts on the wire: `writeSize(size)`
writes the 4 big-endian bytes of `byteVector.size.toInt`, then the payload
bytes follow (the write mutex keeps them contiguous). -/
def FramedSocket.write (p : List Nat) : List Nat :=
  putInt32 (toInt32 p.length) ++ p

/-- The payload delivered by one `read()` call, if any. -/
def deliveredPayload : ReadOutcome → Option (List Nat)
  | .ret (some (some p)) _ _ => some p
  | _ => none

-- sanity checks (write [] is a keepalive frame; a truncated payload diverges)
example : FramedSocket.write [] = [0, 0, 0, 0] := by decide
example : FramedSocket.readBuffer [] ⟨[0, 0, 0, 2, 7, 8], true⟩ =
    .ret (some (some [7, 8])) ⟨[], true⟩ [] := by decide
example : FramedSocket.readBuffer [1, 1, 1, 1, 1, 1] ⟨[0, 0, 0, 2, 7, 8], false⟩ =
    .ret (some (some [7, 8])) ⟨[], false⟩ [] := by decide
example : FramedSocket.readBuffer [] ⟨[0, 0, 0, 5, 1, 2], true⟩ = .diverge := by decide
example : FramedSocket.readBuffer [] ⟨[255, 255, 255, 255], false⟩ =
    .ret none ⟨[], false⟩ [] := by decide

/-! ### Lemmas about the read loops -/

theorem fillAux_step (f n : Nat) (acc hs : List Nat) (b : Nat) (bs : List Nat) (e : Bool) :
    fillAux (f + 1) (n + 1) acc hs ⟨b :: bs, e⟩ =
      fillAux f (n + 1 - min (n + 1) (min (max (hs.headD (b :: bs).length) 1) (b :: bs).length))
        (acc ++ (b :: bs).take (min (n + 1) (min (max (hs.headD (b :: bs).length) 1) (b :: bs).length)))
        hs.tail
        ⟨(b :: bs).drop (min (n + 1) (min (max (hs.headD (b :: bs).length) 1) (b :: bs).length)), e⟩ :=
  rfl

/-- If at least `n` bytes are available, the read loop fills the buffer with
exactly the first `n` bytes, whatever the partial-read schedule. -/
theorem fillAux_filled (f : Nat) : ∀ (n : Nat) (acc hs d : List Nat) (e : Bool),
    n ≤ f → n ≤ d.length →
    ∃ hs', fillAux f n acc hs ⟨d, e⟩ = .filled (acc ++ d.take n) ⟨d.drop n, e⟩ hs' := by
  induction f with
  | zero =>
    intro n acc hs d e hf _
    have hn : n = 0 := Nat.le_zero.mp hf
    subst hn
    exact ⟨hs, by simp [fillAux]⟩
  | succ g ih =>
    intro n acc hs d e hf hd
    match n, d with
    | 0, d => exact ⟨hs, by simp [fillAux]⟩
    | m + 1, [] => simp at hd
    | m + 1, b :: bs =>
      rw [fillAux_step]
      set k := min (m + 1) (min (max (hs.headD (b :: bs).length) 1) (b :: bs).length) with hk
      have hlen : (b :: bs).length = bs.length + 1 := by simp
      have hk1 : 1 ≤ k := by rw [hk]; omega
      have hkm : k ≤ m + 1 := by rw [hk]; omega
      have hkd : k ≤ (b :: bs).length := by rw [hk]; omega
      obtain ⟨hs', hrec⟩ := ih (m + 1 - k) (acc ++ (b :: bs).take k) hs.tail ((b :: bs).drop k) e
        (by omega) (by simp; omega)
      refine ⟨hs', ?_⟩
      rw [hrec]
      have htake : (b :: bs).take (m + 1) = (b :: bs).take k ++ ((b :: bs).drop k).take (m + 1 - k) := by
        rw [← List.take_add]
        congr 1
        omega
      have hdrop : ((b :: bs).drop k).drop (m + 1 - k) = (b :: bs).drop (m + 1) := by
        rw [List.drop_drop]
        congr 1
        omega
      rw [htake, hdrop, List.append_assoc]

/-- If the stream ends (EOF) before `n` bytes are available, the read loop
observes a `-1` return from `read`, whatever the schedule. -/
theorem fillAux_sawEof (f : Nat) : ∀ (n : Nat) (acc hs d : List Nat),
    n ≤ f → d.length < n →
    ∃ hs', fillAux f n acc hs ⟨d, true⟩ = .sawEof ⟨[], true⟩ hs' := by
  induction f with
  | zero => intro n acc hs d hf hd; omega
  | succ g ih =>
    intro n acc hs d hf hd
    match n, d with
    | m + 1, [] => exact ⟨hs.tail, by simp [fillAux]⟩
    | m + 1, b :: bs =>
      rw [fillAux_step]
      set k := min (m + 1) (min (max (hs.headD (b :: bs).length) 1) (b :: bs).length) with hk
      have hlen : (b :: bs).length = bs.length + 1 := by simp
      have hk1 : 1 ≤ k := by rw [hk]; omega
      have hkd : k ≤ (b :: bs).length := by rw [hk]; omega
      exact ih (m + 1 - k) (acc ++ (b :: bs).take k) hs.tail ((b :: bs).drop k)
        (by omega) (by simp; omega)

/-- If the stream has fewer than `n` bytes and no EOF follows, the read loop
blocks forever. -/
theorem fillAux_noProgress (f : Nat) : ∀ (n : Nat) (acc hs d : List Nat),
    n ≤ f → d.length < n →
    fillAux f n acc hs ⟨d, false⟩ = .noProgress := by
  induction f with
  | zero => intro n acc hs d hf hd; omega
  | succ g ih =>
    intro n acc hs d hf hd
    match n, d with
    | m + 1, [] => simp [fillAux]
    | m + 1, b :: bs =>
      rw [fillAux_step]
      set k := min (m + 1) (min (max (hs.headD (b :: bs).length) 1) (b :: bs).length) with hk
      have hlen : (b :: bs).length = bs.length + 1 := by simp
      have hk1 : 1 ≤ k := by rw [hk]; omega
      have hkd : k ≤ (b :: bs).length := by rw [hk]; omega
      exact ih (m + 1 - k) (acc ++ (b :: bs).take k) hs.tail ((b :: bs).drop k)
        (by omega) (by simp; omega)

theorem fill_filled (n : Nat) (hs d : List Nat) (e : Bool) (hd : n ≤ d.length) :
    ∃ hs', fill n [] hs ⟨d, e⟩ = .filled (d.take n) ⟨d.drop n, e⟩ hs' := by
  obtain ⟨hs', h⟩ := fillAux_filled n n [] hs d e le_rfl hd
  exact ⟨hs', by simpa [fill] using h⟩

theorem fill_sawEof (n : Nat) (hs d : List Nat) (hd : d.length < n) :
    ∃ hs', fill n [] hs ⟨d, true⟩ = .sawEof ⟨[], true⟩ hs' :=
  fillAux_sawEof n n [] hs d le_rfl hd

theorem fill_noProgress (n : Nat) (hs d : List Nat) (hd : d.length < n) :
    fill n [] hs ⟨d, false⟩ = .noProgress :=
  fillAux_noProgress n n [] hs d le_rfl hd

/-! ### Lemmas about the 32-bit length encoding -/

theorem beVal_beBytes (u : Nat) (h : u < 4294967296) : beVal (beBytes u) = u := by
  simp only [beBytes, beVal]
  omega

theorem putInt32_length (n : Int) : (putInt32 n).length = 4 := by
  simp [putInt32, beBytes]

/-- The signed 32-bit length round-trips through the wire encoding. -/
theorem getInt32_putInt32 (L : Int) (h1 : -2147483648 ≤ L) (h2 : L < 2147483648) :
    getInt32 (putInt32 L) = L := by
  have hnn : (0 : Int) ≤ L % 4294967296 := Int.emod_nonneg L (by norm_num)
  have hlt : L % 4294967296 < 4294967296 := Int.emod_lt_of_pos L (by norm_num)
  have hu : ((L % 4294967296).toNat : Int) = L % 4294967296 := Int.toNat_of_nonneg hnn
  have hub : (L % 4294967296).toNat < 4294967296 := by omega
  simp only [getInt32, putInt32, beVal_beBytes _ hub]
  split <;> omega

theorem toInt32_small (u : Nat) (h : u < 2147483648) : toInt32 u = u := by
  simp only [toInt32]
  have h1 : u % 4294967296 = u := Nat.mod_eq_of_lt (by omega)
  rw [h1]
  split <;> omega

/-! ### Lemmas about `FramedSocket.readBuffer` on well-formed wire data -/

theorem take4_putInt32 (L : Int) (rest : List Nat) :
    (putInt32 L ++ rest).take 4 = putInt32 L := by
  rw [← putInt32_length L]
  exact List.take_left _ _

theorem drop4_putInt32 (L : Int) (rest : List Nat) :
    (putInt32 L ++ rest).drop 4 = rest := by
  rw [← putInt32_length L]
  exact List.drop_left _ _

/-- A frame whose length field is negative is read as `None` (peer closed);
exactly the 4 header bytes are consumed. -/
theorem readBuffer_negLen (L : Int) (rest hs : List Nat) (e : Bool)
    (h1 : -2147483648 ≤ L) (h2 : L < 0) :
    ∃ hs', FramedSocket.readBuffer hs ⟨putInt32 L ++ rest, e⟩ = .ret none ⟨rest, e⟩ hs' := by
  obtain ⟨hs', hf⟩ := fill_filled 4 hs (putInt32 L ++ rest) e
    (by rw [List.length_append, putInt32_length]; omega)
  refine ⟨hs', ?_⟩
  rw [FramedSocket.readBuffer, hf, take4_putInt32, drop4_putInt32]
  simp only [getInt32_putInt32 L h1 (by omega)]
  rw [if_pos h2]

/-- A frame with length `0` is read as `Some(None)` (keepalive); exactly the
4 header bytes are consumed. -/
theorem readBuffer_zeroLen (rest hs : List Nat) (e : Bool) :
    ∃ hs', FramedSocket.readBuffer hs ⟨putInt32 0 ++ rest, e⟩ = .ret (some none) ⟨rest, e⟩ hs' := by
  obtain ⟨hs', hf⟩ := fill_filled 4 hs (putInt32 0 ++ rest) e
    (by rw [List.length_append, putInt32_length]; omega)
  refine ⟨hs', ?_⟩
  rw [FramedSocket.readBuffer, hf, take4_putInt32, drop4_putInt32]
  simp only [getInt32_putInt32 0 (by norm_num) (by norm_num)]
  norm_num

/-- A frame with positive length `n` followed by an `n`-byte payload is read as
`Some(Some payload)`; exactly the header and the payload are consumed, for
every partial-read schedule. -/
theorem readBuffer_posLen (n : Nat) (p rest hs : List Nat) (e : Bool)
    (hp : p.length = n) (h0 : 0 < n) (h31 : n < 2147483648) :
    ∃ hs', FramedSocket.readBuffer hs ⟨putInt32 n ++ (p ++ rest), e⟩ =
      .ret (some (some p)) ⟨rest, e⟩ hs' := by
  obtain ⟨hs1, hf⟩ := fill_filled 4 hs (putInt32 (n : Int) ++ (p ++ rest)) e
    (by rw [List.length_append, putInt32_length]; omega)
  have hn : getInt32 (putInt32 (n : Int)) = (n : Int) :=
    getInt32_putInt32 _ (by omega) (by omega)
  obtain ⟨hs2, hf2⟩ := fill_filled n hs1 (p ++ rest) e (by rw [List.length_append]; omega)
  refine ⟨hs2, ?_⟩
  rw [FramedSocket.readBuffer, hf, take4_putInt32, drop4_putInt32]
  simp only [hn]
  rw [if_neg (by omega), if_neg (by omega)]
  have hton : ((n : Int)).toNat = n := Int.toNat_natCast n
  rw [hton, hf2, ← hp, List.take_left, hp]
  rw [← hp, List.drop_left]

/-- End-of-stream while reading the 4 length bytes yields `None` (the length
loop checks each `read` for `-1`). -/
theorem readBuffer_eofInLen (d hs : List Nat) (hd : d.length < 4) :
    ∃ hs', FramedSocket.readBuffer hs ⟨d, true⟩ = .ret none ⟨[], true⟩ hs' := by
  obtain ⟨hs', hf⟩ := fill_sawEof 4 hs d hd
  exact ⟨hs', by rw [FramedSocket.readBuffer, hf]⟩

/-- Blocking (no data, no EOF) while reading the length: `readBuffer` never
returns. -/
theorem readBuffer_blockedInLen (d hs : List Nat) (hd : d.length < 4) :
    FramedSocket.readBuffer hs ⟨d, false⟩ = .blocked := by
  rw [FramedSocket.readBuffer, fill_noProgress 4 hs d hd]

/-- End-of-stream while reading the payload: the payload loop ignores the `-1`
return of `read` and spins forever (`.diverge`). -/
theorem readBuffer_eofInPayload (n : Nat) (p' hs : List Nat)
    (hp : p'.length < n) (h0 : 0 < n) (h31 : n < 2147483648) :
    FramedSocket.readBuffer hs ⟨putInt32 n ++ p', true⟩ = .diverge := by
  obtain ⟨hs1, hf⟩ := fill_filled 4 hs (putInt32 (n : Int) ++ p') true
    (by rw [List.length_append, putInt32_length]; omega)
  have hn : getInt32 (putInt32 (n : Int)) = (n : Int) :=
    getInt32_putInt32 _ (by omega) (by omega)
  obtain ⟨hs2, hf2⟩ := fill_sawEof n hs1 p' hp
  rw [FramedSocket.readBuffer, hf, take4_putInt32, drop4_putInt32]
  simp only [hn]
  rw [if_neg (by omega), if_neg (by omega), Int.toNat_natCast, hf2]

/-! ### The frame stream above `readBuffer` (`FramedSocket.bitVectors`) -/

/-- One frame as the sender puts it on the wire. -/
inductive WireItem where
  | keepalive
  | msg (p : List Nat)
deriving DecidableEq, Repr

/-- The bytes of one frame: a keepalive is a bare zero length; a message is
what `FramedSocket.write` emits. -/
def encodeItem : WireItem → List Nat
  | .keepalive => putInt32 0
  | .msg p => FramedSocket.write p

def encodeItems : List WireItem → List Nat
  | [] => []
  | w :: t => encodeItem w ++ encodeItems t

/-- The positive-length payloads of a frame sequence, in order. -/
def payloads : List WireItem → List (List Nat)
  | [] => []
  | .keepalive :: t => payloads t
  | .msg p :: t => p :: payloads t

/-- How the incoming stream ends after the frames: a plain end-of-stream, or a
peer-closed marker (negative length) possibly followed by junk bytes. -/
inductive Ending where
  | eofEnd
  | closeMarker (L : Int) (junk : List Nat) (e : Bool)
deriving DecidableEq, Repr

def Ending.extra : Ending → List Nat
  | .eofEnd => []
  | .closeMarker L junk _ => putInt32 L ++ junk

def Ending.eofAfter : Ending → Bool
  | .eofEnd => true
  | .closeMarker _ _ e => e

/-- The marker's length field is negative and representable in 32 bits. -/
def Ending.wf : Ending → Prop
  | .eofEnd => True
  | .closeMarker L _ _ => -2147483648 ≤ L ∧ L < 0

/-- The incoming byte stream carrying the frames `ws` and then the ending. -/
def streamOf (ws : List WireItem) (endg : Ending) : SockState :=
  ⟨encodeItems ws ++ endg.extra, endg.eofAfter⟩

/-- A message payload is nonempty and shorter than 2^31 bytes. -/
def WireItem.wf : WireItem → Prop
  | .keepalive => True
  | .msg p => 0 < p.length ∧ p.length < 2147483648

/-- `FramedSocket.bitVectors`: `Stream.repeatEval(read()).unNoneTerminate.unNone`
— repeatedly call `read()`, terminate on `None`, discard keepalives
(`Some(None)`), emit payloads.  `fuel` bounds the number of `read()` calls (the
theorems pass enough fuel to drain the stream); a call that blocks or spins
forever delivers nothing further, so those branches end the observed output. -/
def bitVectorsRun : Nat → List Nat → SockState → List (List Nat)
  | 0, _, _ => []
  | f + 1, hs, s =>
    match FramedSocket.readBuffer hs s with
    | .ret none _ _ => []
    | .ret (some none) s' hs' => bitVectorsRun f hs' s'
    | .ret (some (some p)) s' hs' => p :: bitVectorsRun f hs' s'
    | .blocked => []
    | .diverge => []

/-! ### Claims C1, C2, C3, C7: the framing layer -/

/-- Claim C1, counterexample to the stated range: for the empty payload,
`FramedSocket.write []` emits a length-0 frame, which the receiving `read()`
returns as the keepalive marker `Some(None)` — no payload is delivered, so
`read(write(p)) = p` fails at `p = []`. -/
theorem write_read_empty_is_keepalive :
    FramedSocket.readBuffer [] ⟨FramedSocket.write [], true⟩ =
      .ret (some none) ⟨[], true⟩ [] ∧
    deliveredPayload (FramedSocket.readBuffer [] ⟨FramedSocket.write [], true⟩) ≠
      some [] := by
  decide

/-- A written frame with a nonempty payload below 2^31 bytes is read back as
`Some(Some p)`, consuming exactly the frame's bytes. -/
theorem readBuffer_write (p rest hs : List Nat) (e : Bool)
    (h0 : 0 < p.length) (h31 : p.length < 2147483648) :
    ∃ hs', FramedSocket.readBuffer hs ⟨FramedSocket.write p ++ rest, e⟩ =
      .ret (some (some p)) ⟨rest, e⟩ hs' := by
  rw [FramedSocket.write, toInt32_small p.length h31, List.append_assoc]
  exact readBuffer_posLen p.length p rest hs e rfl h0 h31

/-- Claim C1 (amended to `1 ≤ |p| ≤ 2^31 − 1`): a frame written by
`FramedSocket.write p` is read back by one `read()` as exactly `Some(Some p)`,
for every partial-read schedule; the read consumes exactly the frame's bytes,
leaving whatever follows untouched, so no other frame is delivered between the
write and that read. -/
theorem write_read_roundtrip (p rest hs : List Nat) (e : Bool)
    (h0 : 0 < p.length) (h31 : p.length < 2 ^ 31) :
    ∃ hs', FramedSocket.readBuffer hs ⟨FramedSocket.write p ++ rest, e⟩ =
      .ret (some (some p)) ⟨rest, e⟩ hs' :=
  readBuffer_write p rest hs e h0 (by omega)

/-- Witness for `write_read_roundtrip` at `p = [7]`. -/
theorem write_read_roundtrip_w :
    ∃ hs', FramedSocket.readBuffer [] ⟨FramedSocket.write [7] ++ [], true⟩ =
      .ret (some (some [7])) ⟨[], true⟩ hs' :=
  write_read_roundtrip [7] [] [] true (by decide) (by decide)

/-- Claim C2: `read()` returns `None` when the decoded 4-byte big-endian
signed length `L` is negative, `Some(None)` when `L = 0`, and `Some(Some buf)`
with exactly `L` payload bytes when `L > 0`, reading length and payload in
full across arbitrary partial OS reads (the schedule `hs`). -/
theorem readBuffer_frame_semantics (L : Int) (rest hs : List Nat) (e : Bool)
    (h1 : -(2 ^ 31) ≤ L) (h2 : L < 2 ^ 31) :
    (L < 0 → ∃ hs', FramedSocket.readBuffer hs ⟨putInt32 L ++ rest, e⟩ =
        .ret none ⟨rest, e⟩ hs') ∧
    (L = 0 → ∃ hs', FramedSocket.readBuffer hs ⟨putInt32 L ++ rest, e⟩ =
        .ret (some none) ⟨rest, e⟩ hs') ∧
    (∀ p rest2, 0 < L → rest = p ++ rest2 → (p.length : Int) = L →
      ∃ hs', FramedSocket.readBuffer hs ⟨putInt32 L ++ rest, e⟩ =
        .ret (some (some p)) ⟨rest2, e⟩ hs') := by
  refine ⟨fun hneg => readBuffer_negLen L rest hs e (by omega) hneg,
          fun hz => by rw [hz]; exact readBuffer_zeroLen rest hs e,
          fun p rest2 hpos hrest hlen => ?_⟩
  subst hrest
  have hn : L = ((p.length : Int)) := hlen.symm
  subst hn
  exact readBuffer_posLen p.length p rest2 hs e rfl (by omega) (by omega)

/-- Witness for `readBuffer_frame_semantics` at `L = -1`, `L = 0`, `L = 2`. -/
theorem readBuffer_frame_semantics_w :
    (∃ hs', FramedSocket.readBuffer [] ⟨putInt32 (-1) ++ [], true⟩ =
      .ret none ⟨[], true⟩ hs') ∧
    (∃ hs', FramedSocket.readBuffer [] ⟨putInt32 0 ++ [9], false⟩ =
      .ret (some none) ⟨[9], false⟩ hs') ∧
    (∃ hs', FramedSocket.readBuffer [] ⟨putInt32 2 ++ ([5, 6] ++ []), true⟩ =
      .ret (some (some [5, 6])) ⟨[], true⟩ hs') :=
  ⟨(readBuffer_frame_semantics (-1) [] [] true (by norm_num) (by norm_num)).1
      (by norm_num),
   (readBuffer_frame_semantics 0 [9] [] false (by norm_num) (by norm_num)).2.1 rfl,
   (readBuffer_frame_semantics 2 ([5, 6] ++ []) [] true (by norm_num)
      (by norm_num)).2.2 [5, 6] [] (by norm_num) rfl (by norm_num)⟩

/-- Claim C3 (code bug): EOF while reading the 4-byte length does yield `None`
(first conjunct), but EOF while reading the payload makes `readBuffer` spin
forever instead of returning `None`: the payload loop
`while (msgBuffer.hasRemaining) { socketChannel.read(msgBuffer) }` never checks
the `-1` return value, and once `read` returns `-1` it does so on every later
call (second conjunct, at the frame `[0,0,0,5]` with only 2 payload bytes
before EOF). -/
theorem readBuffer_eof_behavior :
    FramedSocket.readBuffer [] ⟨[0, 0], true⟩ = .ret none ⟨[], true⟩ [] ∧
    FramedSocket.readBuffer [] ⟨[0, 0, 0, 5, 1, 2], true⟩ = .diverge := by
  decide

/-- Claim C7: the frame stream built on `read()` delivers exactly the
positive-length payloads in order — keepalives are discarded, never observed
above `FramedSocket` — and terminates at the first peer-closed marker or at
EOF, for every partial-read schedule. -/
theorem bitVectors_delivers_payloads (ws : List WireItem) (endg : Ending) :
    ∀ hs : List Nat, (∀ w ∈ ws, w.wf) → endg.wf →
    bitVectorsRun (ws.length + 1) hs (streamOf ws endg) = payloads ws := by
  induction ws with
  | nil =>
    intro hs _ hend
    match endg with
    | .eofEnd =>
      obtain ⟨hs', h⟩ := readBuffer_eofInLen [] hs (by simp)
      simp only [streamOf, encodeItems, Ending.extra, Ending.eofAfter, List.nil_append]
      rw [List.length_nil, bitVectorsRun, h]
      rfl
    | .closeMarker L junk e =>
      obtain ⟨hL1, hL2⟩ := hend
      obtain ⟨hs', h⟩ := readBuffer_negLen L junk hs e hL1 hL2
      simp only [streamOf, encodeItems, Ending.extra, Ending.eofAfter, List.nil_append]
      rw [List.length_nil, bitVectorsRun, h]
      rfl
  | cons w t ih =>
    intro hs hws hend
    have hwf : w.wf := hws w (List.mem_cons_self w t)
    have hrest : streamOf (w :: t) endg =
        ⟨encodeItem w ++ (encodeItems t ++ endg.extra), endg.eofAfter⟩ := by
      simp [streamOf, encodeItems, List.append_assoc]
    match w with
    | .keepalive =>
      obtain ⟨hs', h⟩ := readBuffer_zeroLen (encodeItems t ++ endg.extra) hs endg.eofAfter
      rw [hrest]
      rw [List.length_cons, bitVectorsRun]
      simp only [encodeItem] at *
      rw [h]
      exact ih hs' (fun x hx => hws x (List.mem_cons_of_mem _ hx)) hend
    | .msg p =>
      obtain ⟨h0, h31⟩ := hwf
      obtain ⟨hs', h⟩ := readBuffer_write p (encodeItems t ++ endg.extra) hs
        endg.eofAfter h0 h31
      rw [hrest]
      rw [List.length_cons, bitVectorsRun]
      simp only [encodeItem] at *
      rw [h, payloads]
      exact congrArg _ (ih hs' (fun x hx => hws x (List.mem_cons_of_mem _ hx)) hend)

/-- Witness for `bitVectors_delivers_payloads`: two messages with keepalives
interleaved, ending in a peer-closed marker followed by junk. -/
theorem bitVectors_delivers_payloads_w :
    bitVectorsRun 5 []
      (streamOf [.keepalive, .msg [1, 2], .keepalive, .msg [3]]
        (.closeMarker (-7) [9, 9] false)) = [[1, 2], [3]] :=
  bitVectors_delivers_payloads [.keepalive, .msg [1, 2], .keepalive, .msg [3]]
    (.closeMarker (-7) [9, 9] false) []
    (by
      intro x hx
      simp only [List.mem_cons, List.not_mem_nil, or_false] at hx
      rcases hx with h | h | h | h <;> subst h <;> norm_num [WireItem.wf])
    (by norm_num [Ending.wf])

/-! ### Channel roles and the identify handshake
(`SocketTransportServer.selectChannels`) -/

/-- The two channel roles (`IdentifyChannel` in `polynote.messages`). -/
inductive ChannelRole where
  | MainChannel
  | NotebookUpdatesChannel
deriving DecidableEq, Repr

/-- Modelled from the spec: `IdentifyChannel.encode` lives in
`polynote.messages` (not under `src/`); the spec fixes it as a
single-byte small-integer tag encoding known symmetrically to both peers. -/
def IdentifyChannel.encode : ChannelRole → List Nat
  | .MainChannel => [0]
  | .NotebookUpdatesChannel => [1]

/-- Modelled from the spec: `IdentifyChannel.decodeBuffer` (not under `src/`)
is the inverse of the tag encoding; any other buffer is a decoding failure. -/
def IdentifyChannel.decodeBuffer : List Nat → Except String ChannelRole
  | [0] => .ok .MainChannel
  | [1] => .ok .NotebookUpdatesChannel
  | _ => .error "unknown channel tag"

instance : DecidableEq (Except String ChannelRole) := fun a b =>
  match a, b with
  | .ok x, .ok y =>
    if h : x = y then .isTrue (by rw [h]) else .isFalse (by simp [h])
  | .error x, .error y =>
    if h : x = y then .isTrue (by rw [h]) else .isFalse (by simp [h])
  | .ok _, .error _ => .isFalse (by simp)
  | .error _, .ok _ => .isFalse (by simp)

/-- Outcome of `identify(channel)` inside `selectChannels`:
`done r` = the repeat loop exited with a full buffer which decoded to `r`;
`pending` = after `fuel` reads the loop is still repeating.
`ZSchedule.doUntil` stops only on `Some(Some _)`, so both `None` (EOF) and
`Some(None)` (keepalive) make the loop call `read()` again. -/
inductive IdentifyRes where
  | done (r : Except String ChannelRole)
  | pending
deriving DecidableEq, Repr

/-- `identify(channel) = channel.read().repeat(ZSchedule.doUntil(Some(Some _))).flatMap(decodeBuffer)`.
A read that blocks or spins forever leaves the loop pending for good. -/
def identify : Nat → List Nat → SockState → IdentifyRes
  | 0, _, _ => .pending
  | f + 1, hs, s =>
    match FramedSocket.readBuffer hs s with
    | .ret (some (some buf)) _ _ => .done (IdentifyChannel.decodeBuffer buf)
    | .ret _ s' hs' => identify f hs' s'
    | _ => .pending

/-- `SocketTransport.Channels`: the two framed sockets bound to their roles. -/
structure Channels (α : Type) where
  mainChannel : α
  notebookUpdatesChannel : α
deriving DecidableEq, Repr

inductive SelectRes (α : Type) where
  | ok (c : Channels α)
  | err (msg : String)
  | pending
deriving DecidableEq, Repr

/-- `SocketTransportServer.selectChannels`: identify both channels in parallel
(`zipPar`: if either side fails, the whole call fails; if a side never
completes and the other does not fail, the call never completes), then bind
roles by the permutation of the two tags; any other combination fails with
`IllegalStateException("Illegal channel set")`. -/
def selectChannels {α : Type} (c1 c2 : α) (f : Nat) (hs1 hs2 : List Nat)
    (s1 s2 : SockState) : SelectRes α :=
  match identify f hs1 s1, identify f hs2 s2 with
  | .done (.ok .MainChannel), .done (.ok .NotebookUpdatesChannel) => .ok ⟨c1, c2⟩
  | .done (.ok .NotebookUpdatesChannel), .done (.ok .MainChannel) => .ok ⟨c2, c1⟩
  | .done (.error e), _ => .err e
  | _, .done (.error e) => .err e
  | .done (.ok _), .done (.ok _) => .err "Illegal channel set"
  | _, _ => .pending

/-- At EOF, `read()` returns `None` with the socket state unchanged, so the
identify repeat loop never exits, whatever the fuel and schedule. -/
theorem identify_eof_pending : ∀ (f : Nat) (hs : List Nat),
    identify f hs ⟨[], true⟩ = .pending := by
  intro f
  induction f with
  | zero => intro hs; rfl
  | succ g ih =>
    intro hs
    obtain ⟨hs', h⟩ := readBuffer_eofInLen [] hs (by simp)
    rw [identify, h]
    exact ih hs'

/-- With no data and no EOF, `read()` blocks forever, so identify is pending. -/
theorem identify_blocked_pending (f : Nat) (hs : List Nat) :
    identify f hs ⟨[], false⟩ = .pending := by
  match f with
  | 0 => rfl
  | g + 1 => rw [identify, readBuffer_blockedInLen [] hs (by simp)]

/-! ### Orchestration (`SocketTransport.startConnection` / `deployAndServe`) -/

/-- Close/kill actions the construction path could perform. -/
inductive HAction where
  | killProcess
  | closeSocket (i : Nat)
deriving DecidableEq, Repr

inductive StartRes where
  | ok
  | timedOut
deriving DecidableEq, Repr

/-- `3.minutes` in milliseconds. -/
def acceptTimeoutMs : Nat := 180000

/-- `SocketTransport.startConnection`: `(effectBlocking(server.accept()) then
FramedSocket(channel)).timeout(3.minutes)`, failing with `TimeoutException`
when the timeout elapses first.  `tAccept` is how long `accept()` takes in
milliseconds (`none` = the client never connects); wrapping the channel is
immediate.  The timeout covers only these two steps — no read of any frame
happens inside it. -/
def startConnection (tAccept : Option Nat) : StartRes :=
  match tAccept with
  | some t => if t ≤ acceptTimeoutMs then .ok else .timedOut
  | none => .timedOut

inductive ConstructRes where
  | timeoutFail
  | handshakeFail (msg : String)
  | hang
  | okServer (c : Channels Nat)
deriving DecidableEq, Repr

/-- `SocketTransport.deployAndServe` from the point where the kernel process
has been deployed: accept connection 1, accept connection 2 (each under the
3-minute timeout), then `SocketTransportServer.apply`, whose `selectChannels`
runs the identify handshake.  The second component records the close/kill
actions performed on each path: the source has no error handling here — no
branch closes a socket or kills the process. -/
def deployAndServe (t1 t2 : Option Nat) (f : Nat) (hs1 hs2 : List Nat)
    (s1 s2 : SockState) : ConstructRes × List HAction :=
  match startConnection t1 with
  | .timedOut => (.timeoutFail, [])
  | .ok =>
    match startConnection t2 with
    | .timedOut => (.timeoutFail, [])
    | .ok =>
      match selectChannels 0 1 f hs1 hs2 s1 s2 with
      | .ok c => (.okServer c, [])
      | .err m => (.handshakeFail m, [])
      | .pending => (.hang, [])

/-! ### Claims C4, C5, C6: handshake and construction -/

/-- Claim C4: for either permutation of the two role tags, `selectChannels`
binds the socket that identified as `Main` to the main-channel role and the
one that identified as `NotebookUpdates` to the updates role — channel order
does not matter. -/
theorem selectChannels_permutation {α : Type} (c1 c2 : α) (f : Nat)
    (hs1 hs2 : List Nat) (s1 s2 : SockState) :
    (identify f hs1 s1 = .done (.ok .MainChannel) →
     identify f hs2 s2 = .done (.ok .NotebookUpdatesChannel) →
     selectChannels c1 c2 f hs1 hs2 s1 s2 = .ok ⟨c1, c2⟩) ∧
    (identify f hs1 s1 = .done (.ok .NotebookUpdatesChannel) →
     identify f hs2 s2 = .done (.ok .MainChannel) →
     selectChannels c1 c2 f hs1 hs2 s1 s2 = .ok ⟨c2, c1⟩) := by
  constructor <;> intro h1 h2 <;> rw [selectChannels, h1, h2]

/-- Witness for `selectChannels_permutation`: channel 1 sends a keepalive and
then the `Main` tag while channel 2 sends the `NotebookUpdates` tag, and the
crossed permutation. -/
theorem selectChannels_permutation_w :
    selectChannels (0 : Nat) 1 2 [] []
      ⟨encodeItems [.keepalive, .msg (IdentifyChannel.encode .MainChannel)], true⟩
      ⟨FramedSocket.write (IdentifyChannel.encode .NotebookUpdatesChannel), true⟩ =
      .ok ⟨0, 1⟩ ∧
    selectChannels (0 : Nat) 1 2 [] []
      ⟨FramedSocket.write (IdentifyChannel.encode .NotebookUpdatesChannel), true⟩
      ⟨FramedSocket.write (IdentifyChannel.encode .MainChannel), true⟩ =
      .ok ⟨1, 0⟩ :=
  ⟨(selectChannels_permutation 0 1 2 [] [] _ _).1 (by decide) (by decide),
   (selectChannels_permutation 0 1 2 [] [] _ _).2 (by decide) (by decide)⟩

/-- Claim C5 (code bug), evaluated at the failing input "EOF before a tag
arrives": `read()` returns `None` at EOF with the socket state unchanged, and
`ZSchedule.doUntil` only stops on `Some(Some _)`, so `identify` repeats the
read forever — its `ZIO.fail(new IllegalStateException("No buffer was
received"))` branch is unreachable — and `selectChannels` never completes:
construction neither fails with a handshake error nor closes the two
`FramedSocket`s or the deployed process. -/
theorem identify_eof_never_fails (f : Nat) (hs1 hs2 : List Nat) :
    identify f hs1 ⟨[], true⟩ = .pending ∧
    selectChannels (0 : Nat) 1 f hs1 hs2 ⟨[], true⟩ ⟨[], true⟩ = .pending ∧
    (deployAndServe (some 0) (some 0) f hs1 hs2 ⟨[], true⟩ ⟨[], true⟩).1 = .hang ∧
    (deployAndServe (some 0) (some 0) f hs1 hs2 ⟨[], true⟩ ⟨[], true⟩).2 = [] := by
  have h1 := identify_eof_pending f hs1
  have h2 := identify_eof_pending f hs2
  have hsel : selectChannels (0 : Nat) 1 f hs1 hs2 ⟨[], true⟩ ⟨[], true⟩ = .pending := by
    rw [selectChannels, h1, h2]
  refine ⟨h1, hsel, ?_, ?_⟩ <;>
    rw [deployAndServe, show startConnection (some 0) = .ok from rfl, hsel]

/-- Claim C6 (amended): the 3-minute timeout applies to accepting each
connection and wrapping it in a `FramedSocket`, not to the first frame.  If an
accept takes longer than 3 minutes (or the client never connects),
construction fails with a `TimeoutException` but performs no kill of the
deployed process; if both connections are accepted in time and the client
never sends any frame, construction hangs in the identify loop — no timeout
fires. -/
theorem accept_timeout_semantics (t1 t2 : Option Nat) (f : Nat)
    (hs1 hs2 : List Nat) (s1 s2 : SockState) (t : Nat) (ht : 180000 < t) :
    startConnection (some t) = .timedOut ∧
    startConnection none = .timedOut ∧
    (startConnection t1 = .timedOut →
      deployAndServe t1 t2 f hs1 hs2 s1 s2 = (.timeoutFail, [])) ∧
    (startConnection t1 = .ok → startConnection t2 = .ok →
      deployAndServe t1 t2 f hs1 hs2 ⟨[], false⟩ ⟨[], false⟩ = (.hang, [])) := by
  refine ⟨?_, rfl, fun h => by rw [deployAndServe, h], fun h1 h2 => ?_⟩
  · rw [startConnection, if_neg (by simp [acceptTimeoutMs]; omega)]
  · have hsel : selectChannels (0 : Nat) 1 f hs1 hs2 ⟨[], false⟩ ⟨[], false⟩ = .pending := by
      rw [selectChannels, identify_blocked_pending f hs1, identify_blocked_pending f hs2]
    rw [deployAndServe, h1, h2, hsel]

/-- Witness for `accept_timeout_semantics`: a 180001 ms accept times out; an
absent client times out with no kill; a silent client hangs. -/
theorem accept_timeout_semantics_w :
    startConnection (some 180001) = .timedOut ∧
    deployAndServe none (some 0) 3 [] [] ⟨[], false⟩ ⟨[], false⟩ = (.timeoutFail, []) ∧
    deployAndServe (some 0) (some 0) 3 [] [] ⟨[], false⟩ ⟨[], false⟩ = (.hang, []) :=
  ⟨(accept_timeout_semantics none (some 0) 3 [] [] ⟨[], false⟩ ⟨[], false⟩ 180001
      (by norm_num)).1,
   (accept_timeout_semantics none (some 0) 3 [] [] ⟨[], false⟩ ⟨[], false⟩ 180001
      (by norm_num)).2.2.1 (by decide),
   (accept_timeout_semantics (some 0) (some 0) 3 [] [] ⟨[], false⟩ ⟨[], false⟩ 180001
      (by norm_num)).2.2.2 (by decide) (by decide)⟩

/-- Claim C6, counterexample to the stated form: both connections are accepted
immediately but the client never sends its first frame — construction hangs
instead of failing with a timeout error (first conjunct); and when the accept
does time out, the action trace is empty: the deployed process is not killed
(second conjunct). -/
theorem accept_timeout_counterexample :
    deployAndServe (some 0) (some 0) 5 [] [] ⟨[], false⟩ ⟨[], false⟩ = (.hang, []) ∧
    deployAndServe none none 5 [] [] ⟨[], false⟩ ⟨[], false⟩ = (.timeoutFail, []) := by
  decide

/-! ### The client's streams (`SocketTransportClient.requests` / `updates`) -/

/-- Modelled from the spec: `RemoteRequest` (`polynote.messages`, not under
`src/`) is opaque to the transport except for the distinguished
`ShutdownRequest` variant. -/
inductive RemoteRequest where
  | shutdownRequest
  | otherRequest (n : Nat)
deriving DecidableEq, Repr

/-- `_.isInstanceOf[ShutdownRequest]`. -/
def isShutdownRequest : RemoteRequest → Bool
  | .shutdownRequest => true
  | .otherRequest _ => false

/-- Modelled from the spec: `terminateAfter p` (polynote's stream operator,
not under `src/`) — the stream terminates after delivering the first element
satisfying `p`. -/
def terminateAfter {α : Type} (p : α → Bool) : List α → List α
  | [] => []
  | x :: t => if p x then [x] else x :: terminateAfter p t

/-- Modelled from the spec: `interruptAndIgnoreWhen closed` (polynote's stream
operator, not under `src/`) — the stream is interrupted when the closed latch
fires.  `latchAt = some k` means the latch fires after `k` elements have been
delivered; `none` means it never fires. -/
def interruptAndIgnoreWhen {α : Type} (latchAt : Option Nat) (xs : List α) : List α :=
  match latchAt with
  | none => xs
  | some k => xs.take k

/-- What one `SocketTransportClient` observes: the requests decoded from the
main channel, the updates decoded from the notebook-updates channel (opaque,
numbered), and when — if ever — the client's closed latch fires. -/
structure ClientIO where
  mainDecoded : List RemoteRequest
  updDecoded : List Nat
  latchAt : Option Nat
deriving DecidableEq, Repr

/-- `SocketTransportClient.requests = requestStream.terminateAfter(_.isInstanceOf[ShutdownRequest])`. -/
def SocketTransportClient.requests (io : ClientIO) : List RemoteRequest :=
  terminateAfter isShutdownRequest io.mainDecoded

/-- `SocketTransportClient.updates = updateStream.interruptAndIgnoreWhen(closed)`. -/
def SocketTransportClient.updates (io : ClientIO) : List Nat :=
  interruptAndIgnoreWhen io.latchAt io.updDecoded

theorem terminateAfter_none {α : Type} (p : α → Bool) :
    ∀ xs : List α, (∀ x ∈ xs, p x = false) → terminateAfter p xs = xs := by
  intro xs
  induction xs with
  | nil => intro _; rfl
  | cons x t ih =>
    intro h
    rw [terminateAfter, if_neg (by simp [h x (List.mem_cons_self x t)]),
      ih fun y hy => h y (List.mem_cons_of_mem x hy)]

theorem terminateAfter_hit {α : Type} (p : α → Bool) (x : α) (hx : p x = true) :
    ∀ (pre post : List α), (∀ y ∈ pre, p y = false) →
    terminateAfter p (pre ++ x :: post) = pre ++ [x] := by
  intro pre
  induction pre with
  | nil => intro post _; simp [terminateAfter, hx]
  | cons y t ih =>
    intro post h
    rw [List.cons_append, terminateAfter,
      if_neg (by simp [h y (List.mem_cons_self y t)]),
      ih post fun z hz => h z (List.mem_cons_of_mem y hz), List.cons_append]

/-! ### Client connection (`SocketTransport.connectClient`) -/

/-- The wire frames on one channel opened by `connectClient`.
`FramedSocket(channel, keepalive = true)` forks the keepalive fiber as soon as
the socket is wrapped — before `connectClient` reaches the
`IdentifyChannel.encode(role) >>= channel.write` step — and
`ZSchedule.spaced` runs `sendKeepalive()` once immediately, so the fiber can
win the write lock any number `k` of times before the main fiber's tag write;
each win puts one keepalive frame on the wire ahead of the tag. -/
def connectClientWire (k : Nat) (role : ChannelRole) (later : List WireItem) :
    List WireItem :=
  List.replicate k .keepalive ++ .msg (IdentifyChannel.encode role) :: later

/-- The payload of the first message (non-keepalive) frame of a wire trace. -/
def firstMsgPayload : List WireItem → Option (List Nat)
  | [] => none
  | .keepalive :: t => firstMsgPayload t
  | .msg p :: _ => some p

/-! ### The write-error path (`FramedSocket.write` / `close`) -/

/-- The errors `FramedSocket.write` can fail with: a
`ClosedChannelException`, or any other I/O error (numbered, opaque). -/
inductive WriteErr where
  | closedChannel
  | otherErr (code : Nat)
deriving DecidableEq, Repr

/-- What the closed latch holds once completed. -/
inductive LatchVal where
  | succeeded
  | failedWith (e : WriteErr)
deriving DecidableEq, Repr

/-- `Promise.succeed(())`: first completion wins; later completions are
no-ops. -/
def promiseSucceed : Option LatchVal → Option LatchVal
  | none => some .succeeded
  | some v => some v

/-- `Promise.fail(err)`: first completion wins; later completions are no-ops. -/
def promiseFail (e : WriteErr) : Option LatchVal → Option LatchVal
  | none => some (.failedWith e)
  | some v => some v

/-- The lifecycle state of one `FramedSocket`: its closed latch and whether
its `SocketChannel` is still open. -/
structure FsState where
  latch : Option LatchVal
  socketOpen : Bool
deriving DecidableEq, Repr

/-- `FramedSocket.close()`: close the socket channel, then complete the
closed latch with success. -/
def FramedSocket.close (st : FsState) : FsState :=
  { latch := promiseSucceed st.latch, socketOpen := false }

/-- The `tapError` handler of `FramedSocket.write`:
`case err: ClosedChannelException => close()` and
`case err => closed.fail(err) *> close()`. -/
def FramedSocket.writeTapError (e : WriteErr) (st : FsState) : FsState :=
  match e with
  | .closedChannel => FramedSocket.close st
  | .otherErr c => FramedSocket.close { st with latch := promiseFail (.otherErr c) st.latch }

/-! ### Claims C8, C9, C10 -/

/-- Claim C8: the client's requests stream delivers every decoded request in
order and terminates immediately after delivering a `ShutdownRequest`
(the `ShutdownRequest` itself is delivered, nothing after it); the updates
stream does not depend on the main channel's content at all — in particular a
`ShutdownRequest` does not affect it — and is cut off exactly when the
client's closed latch fires (never, if the latch never fires). -/
theorem client_shutdown_semantics (pre post : List RemoteRequest)
    (upd : List Nat) (lat : Option Nat) (k : Nat)
    (hpre : ∀ r ∈ pre, isShutdownRequest r = false) :
    SocketTransportClient.requests ⟨pre ++ .shutdownRequest :: post, upd, lat⟩ =
      pre ++ [.shutdownRequest] ∧
    SocketTransportClient.requests ⟨pre, upd, lat⟩ = pre ∧
    (∀ main1 main2 : List RemoteRequest,
      SocketTransportClient.updates ⟨main1, upd, lat⟩ =
      SocketTransportClient.updates ⟨main2, upd, lat⟩) ∧
    (lat = some k → SocketTransportClient.updates ⟨pre, upd, lat⟩ = upd.take k) ∧
    (lat = none → SocketTransportClient.updates ⟨pre, upd, lat⟩ = upd) := by
  refine ⟨terminateAfter_hit isShutdownRequest .shutdownRequest rfl pre post hpre,
          terminateAfter_none isShutdownRequest pre hpre,
          fun _ _ => rfl, fun h => ?_, fun h => ?_⟩ <;>
    rw [SocketTransportClient.updates, h] <;> rfl

/-- Witness for `client_shutdown_semantics`: two ordinary requests before the
shutdown, three updates, latch firing after two updates. -/
theorem client_shutdown_semantics_w :
    SocketTransportClient.requests
      ⟨[.otherRequest 1, .otherRequest 2] ++ .shutdownRequest :: [.otherRequest 3],
       [10, 20, 30], some 2⟩ =
      [.otherRequest 1, .otherRequest 2] ++ [.shutdownRequest] ∧
    SocketTransportClient.updates
      ⟨[.otherRequest 1, .otherRequest 2], [10, 20, 30], some 2⟩ = [10, 20] :=
  ⟨(client_shutdown_semantics [.otherRequest 1, .otherRequest 2] [.otherRequest 3]
      [10, 20, 30] (some 2) 2 (by decide)).1,
   (client_shutdown_semantics [.otherRequest 1, .otherRequest 2] [.otherRequest 3]
      [10, 20, 30] (some 2) 2 (by decide)).2.2.2.1 rfl⟩

/-- Claim C9, counterexample: under the schedule where the keepalive fiber
fires once before the main fiber writes the tag, the first frame on the wire
is a keepalive, not the `ChannelRole` tag. -/
theorem connectClient_keepalive_first :
    (connectClientWire 1 .MainChannel []).head? = some .keepalive ∧
    WireItem.keepalive ≠ .msg (IdentifyChannel.encode .MainChannel) := by
  decide

/-- Claim C9 (amended): on every channel opened by `connectClient` and under
every keepalive schedule, the `ChannelRole` tag is the first message frame on
the wire; every frame that precedes it is a keepalive from the keepalive
fiber forked at `FramedSocket` creation. -/
theorem connectClient_tag_first (k : Nat) (role : ChannelRole)
    (later : List WireItem) :
    firstMsgPayload (connectClientWire k role later) =
      some (IdentifyChannel.encode role) ∧
    (connectClientWire k role later).take k = List.replicate k .keepalive := by
  constructor
  · induction k with
    | zero => rfl
    | succ m ih =>
      rw [connectClientWire, List.replicate_succ, List.cons_append, firstMsgPayload]
      exact ih
  · have h := List.take_left (List.replicate k WireItem.keepalive)
      (WireItem.msg (IdentifyChannel.encode role) :: later)
    rwa [List.length_replicate] at h

/-- Claim C10: when `write` fails with a `ClosedChannelException`, the socket
is closed and the latch completes with success, yielding exactly the state an
orderly local `close()` produces — an `awaitClosed` observer cannot
distinguish the two — while any other write error records its cause in the
latch before the close (whose own success-completion is then a no-op). -/
theorem write_error_latch (st : FsState) (c : Nat) (h : st.latch = none) :
    (FramedSocket.writeTapError .closedChannel st).latch = some .succeeded ∧
    (FramedSocket.writeTapError .closedChannel st).socketOpen = false ∧
    FramedSocket.writeTapError .closedChannel st = FramedSocket.close st ∧
    (FramedSocket.writeTapError (.otherErr c) st).latch =
      some (.failedWith (.otherErr c)) ∧
    (FramedSocket.writeTapError (.otherErr c) st).socketOpen = false := by
  refine ⟨?_, rfl, rfl, ?_, rfl⟩ <;>
    simp [FramedSocket.writeTapError, FramedSocket.close, promiseSucceed, promiseFail, h]

/-- Witness for `write_error_latch` at a live socket with an unset latch. -/
theorem write_error_latch_w :
    (FramedSocket.writeTapError .closedChannel ⟨none, true⟩).latch =
      some .succeeded ∧
    (FramedSocket.writeTapError (.otherErr 3) ⟨none, true⟩).latch =
      some (.failedWith (.otherErr 3)) :=
  ⟨(write_error_latch ⟨none, true⟩ 3 rfl).1,
   (write_error_latch ⟨none, true⟩ 3 rfl).2.2.2.1⟩

end Polynote
